import Mathlib

/- A shallow embedding of the command-line parser in
   src/include/program_params/program_params.h (namespace program_params).

   Strings are modelled as lists of characters.  The typed parameters
   Param<bool>, Param<std::string> and the numeric Param<int>/<long>/... family
   are modelled by a PType tag on the descriptor.  Exceptions thrown by the
   library are the PError.exc constructor carrying the exact message string;
   a failed assert is PError.assertFail (the program aborts in debug builds,
   and the guarded operation is undefined with NDEBUG); reading the
   uninitialized local variable inc in the short-option branch of
   Params::parse is the Outcome.ub result.  The main scan loop is modelled
   with explicit fuel: parseLoop returns none when the fuel runs out, so an
   input on which the C++ loop never advances the cursor yields none for
   every fuel value. -/

namespace ProgramParams

/-- Tokens and parameter names (std::string) as character lists. -/
abbrev Tok := List Char

/-- Conversion from Lean string literals to tokens. -/
def strL (s : String) : Tok := s.toList

/-- bool is_option(const std::string &arg) : arg.size() > 0 && arg[0] == the
    dash marker. -/
def is_option : Tok → Bool
  | [] => false
  | c :: _ => decide (c = '-')

/-- The run of leading decimal digits converted to a number (the digit run
    consumed by std::stoi after sign processing); none when the first
    character is not a digit, modelling the std::invalid_argument throw. -/
def digitsCore (l : List Char) : Option Nat :=
  match l with
  | c :: _ =>
    if c.isDigit then
      some ((l.takeWhile Char.isDigit).foldl (fun acc d => acc * 10 + (d.toNat - 48)) 0)
    else none
  | [] => none

/-- Model of std::stoi and the stol/stoul family at base 10: skip leading
    spaces, optional sign, then at least one digit; trailing characters are
    ignored.  Out-of-range behaviour is not modelled (no claim depends on
    it). -/
def stoi (s : Tok) : Option Int :=
  let s1 := s.dropWhile (fun c => decide (c = ' '))
  match s1 with
  | '-' :: rest => (digitsCore rest).map (fun n => -(n : Int))
  | '+' :: rest => (digitsCore rest).map (fun n => (n : Int))
  | _ => (digitsCore s1).map (fun n => (n : Int))

/-- Position of the first occurrence of the equals sign in a token,
    modelling std::string::find with npos as none. -/
def findEq : Tok → Option Nat
  | [] => none
  | c :: rest => if c = '=' then some 0 else (findEq rest).map (fun n => n + 1)

/-- The slot types used by the claims: Param<bool>, Param<std::string>, and
    the numeric instantiations (represented by int). -/
inductive PType
  | bool
  | int
  | str
deriving DecidableEq

/-- Contents of a typed destination slot. -/
inductive Value
  | vBool (b : Bool)
  | vInt (n : Int)
  | vStr (s : Tok)
deriving DecidableEq

/-- Failure modes.  exc is a thrown program_params::Exception with its
    message; assertFail is a failed assert (abort in debug builds); convErr
    is the std::invalid_argument thrown by the stoi family. -/
inductive PError
  | exc (msg : String)
  | assertFail
  | convErr
deriving DecidableEq

/-- The state of one ParamBase/Param<T> object: names_, option_, required_,
    found_, plus the slot (target_) and its type tag. -/
structure ParamDesc where
  names : List Tok
  option : Bool
  required : Bool
  found : Bool
  type : PType
  slot : Value
deriving DecidableEq

/-- The ParamBase constructor.  The loop assigns option_ := is_option(name)
    for every name, so the final value is that of the last name; the
    homogeneity assert inside it is dead code (the local `first` is
    initialized to true and never cleared).  Neither option_ (when names is
    empty) nor found_ is ever initialized by the constructor, so both
    indeterminate initial values are explicit parameters here. -/
def mkParam (names : List Tok) (required : Bool) (ty : PType) (slot0 : Value)
    (optionInit foundInit : Bool) : ParamDesc :=
  { names := names
    option := names.foldl (fun _ n => is_option n) optionInit
    required := required
    found := foundInit
    type := ty
    slot := slot0 }

/-- Placeholder descriptor used with List.getD; every index generated by the
    embedding is in range, so it is never observed. -/
def dummyDesc : ParamDesc :=
  mkParam [] false .bool (.vBool false) false false

/-- ParamBase::value(start, end, inc): extract the value text for the token
    at position pos and report the consumption inc.  The two asserts
    (start < end and start + 1 < end) are modelled as assertFail. -/
def ParamDesc.value (d : ParamDesc) (toks : List Tok) (pos : Nat) :
    Except PError (Tok × Nat) :=
  if h : pos < toks.length then
    let opt := toks[pos]
    if d.option = false then
      .ok (opt, 1)
    else
      match findEq opt with
      | some j => .ok (opt.drop (j + 1), 1)
      | none =>
        if opt.length > 2 then .ok (opt.drop 2, 1)
        else if h2 : pos + 1 < toks.length then .ok (toks[pos + 1], 2)
        else .error .assertFail
  else .error .assertFail

/-- Param<T>::parse(start, end) for the three modelled slot types.  The bool
    specialization writes true and consumes 0; string stores the value text;
    the numeric specializations run stoi, which throws before target_ and
    found_ are assigned when the text is not numeric. -/
def ParamDesc.parse (d : ParamDesc) (toks : List Tok) (pos : Nat) :
    Except PError (ParamDesc × Nat) :=
  if pos < toks.length then
    match d.type with
    | .bool => .ok ({ d with slot := .vBool true, found := true }, 0)
    | .str =>
      match d.value toks pos with
      | .error e => .error e
      | .ok (v, inc) => .ok ({ d with slot := .vStr v, found := true }, inc)
    | .int =>
      match d.value toks pos with
      | .error e => .error e
      | .ok (v, inc) =>
        match stoi v with
        | some n => .ok ({ d with slot := .vInt n, found := true }, inc)
        | none => .error .convErr
  else .error .assertFail

/-- The Params registry: strict_ flag, the alias map map_ (association list
    with unordered_map overwrite semantics, values are indices into descs),
    the positional_ sequence (indices, registration order), and the shared
    descriptor storage behind the shared_ptr values. -/
structure Params where
  strict : Bool
  map : List (Tok × Nat)
  positional : List Nat
  descs : List ParamDesc
deriving DecidableEq

/-- unordered_map::find. -/
def mapFind (m : List (Tok × Nat)) (k : Tok) : Option Nat :=
  match m with
  | [] => none
  | (k2, v) :: rest => if k = k2 then some v else mapFind rest k

/-- map_[name] = ptr : overwrite in place when the key exists, insert
    otherwise. -/
def mapInsert (m : List (Tok × Nat)) (k : Tok) (v : Nat) : List (Tok × Nat) :=
  match m with
  | [] => [(k, v)]
  | (k2, v2) :: rest =>
    if k = k2 then (k, v) :: rest else (k2, v2) :: mapInsert rest k v

/-- The loop body of Params::add: for each name insert it into the map, then
    either record that an option name was seen or hit assert(!option) when a
    bare name follows an option name. -/
def addLoop (m : List (Tok × Nat)) (idx : Nat) (opt : Bool) :
    List Tok → Except PError (List (Tok × Nat) × Bool)
  | [] => .ok (m, opt)
  | name :: rest =>
    let m2 := mapInsert m name idx
    if is_option name then addLoop m2 idx true rest
    else if opt then .error .assertFail
    else addLoop m2 idx false rest

/-- Params::add(target, names, required): build the descriptor, run the name
    loop, and append to positional_ when no name was option-style (which
    includes an empty name list). -/
def Params.add (ps : Params) (names : List Tok) (required : Bool) (ty : PType)
    (slot0 : Value) (optionInit foundInit : Bool) : Except PError Params :=
  let d := mkParam names required ty slot0 optionInit foundInit
  let idx := ps.descs.length
  match addLoop ps.map idx false names with
  | .error e => .error e
  | .ok (m2, opt) =>
    .ok { ps with
          map := m2
          descs := ps.descs ++ [d]
          positional := if opt then ps.positional else ps.positional ++ [idx] }

/-- A Params object as constructed, before any add. -/
def emptyParams (strict : Bool) : Params :=
  { strict := strict, map := [], positional := [], descs := [] }

/-- Helper for building concrete schemas along the success path of add (all
    registrations in this file succeed, checkable by decide). -/
def addD (ps : Params) (names : List Tok) (required : Bool) (ty : PType)
    (slot0 : Value) : Params :=
  match ps.add names required ty slot0 false false with
  | .ok p2 => p2
  | .error _ => ps

/-- Transient state of the scan loop in Params::parse: the descriptor
    storage (mutated through the shared pointers), the cursor start - argv,
    the next-positional iterator, and the positional_onward flag. -/
structure LoopSt where
  descs : List ParamDesc
  pos : Nat
  nextPos : Nat
  posOnward : Bool
deriving DecidableEq

/-- How a finished parse ended: normally, with a thrown error, or in
    undefined behaviour (the uninitialized inc read). -/
inductive Outcome
  | done
  | err (e : PError)
  | ub
deriving DecidableEq

/-- Result of a finished parse: the final descriptor states (slot writes
    made before a failure persist, since slots are caller-owned references)
    together with the outcome. -/
abbrev ParseRes := List ParamDesc × Outcome

/-- One loop iteration either continues with a new state or halts. -/
inductive StepRes
  | cont (st : LoopSt)
  | halt (r : ParseRes)
deriving DecidableEq

/-- The condition routing a token to the positional branch:
    arg.empty() || arg == single-dash || arg[0] != the dash marker. -/
def isPosToken : Tok → Bool
  | [] => true
  | c :: rest => decide (c :: rest = ['-']) || decide (¬ (c = '-'))

/-- The positional branch of the scan loop: feed the token to the next
    positional descriptor if one remains; otherwise throw in strict mode.
    In lenient mode the C++ executes `continue` WITHOUT advancing start, so
    the state is returned unchanged (the loop then repeats forever). -/
def posRoute (S : Params) (toks : List Tok) (st : LoopSt) : StepRes :=
  if h : st.nextPos < S.positional.length then
    match (st.descs.getD S.positional[st.nextPos] dummyDesc).parse toks st.pos with
    | .error e => .halt (st.descs, .err e)
    | .ok (d2, inc) =>
      .cont { st with
              descs := st.descs.set S.positional[st.nextPos] d2
              pos := st.pos + inc
              nextPos := st.nextPos + 1 }
  else if S.strict then .halt (st.descs, .err (.exc "Unknown positional parameter."))
  else .cont st

/-- The character scan over a short-option cluster.  inc is the local
    variable of the C++ branch: none models it still uninitialized.  On a
    match inc is assigned and a positive value breaks the scan; on a miss
    the strict mode throws, the lenient mode moves to the next character. -/
def clusterLoop (S : Params) (toks : List Tok) (pos : Nat) :
    List Char → List ParamDesc → Option Nat →
    Except (PError × List ParamDesc) (List ParamDesc × Option Nat)
  | [], ds, inc => .ok (ds, inc)
  | c :: rest, ds, inc =>
    match mapFind S.map ['-', c] with
    | some idx =>
      match (ds.getD idx dummyDesc).parse toks pos with
      | .error e => .error (e, ds)
      | .ok (d2, inc2) =>
        let ds2 := ds.set idx d2
        if inc2 > 0 then .ok (ds2, some inc2)
        else clusterLoop S toks pos rest ds2 (some inc2)
    | none =>
      if S.strict then .error (.exc "Unknown short option.", ds)
      else clusterLoop S toks pos rest ds inc

/-- The short-option branch: scan the cluster, then advance by
    inc > 0 ? inc : 1.  When no character matched, inc was never assigned
    and the C++ reads an uninitialized int: Outcome.ub. -/
def shortRoute (S : Params) (toks : List Tok) (st : LoopSt) : StepRes :=
  match clusterLoop S toks st.pos ((toks.getD st.pos []).drop 1) st.descs none with
  | .error (e, ds) => .halt (ds, .err e)
  | .ok (ds, some inc) =>
    .cont { st with descs := ds, pos := st.pos + (if inc > 0 then inc else 1) }
  | .ok (ds, none) => .halt (ds, .ub)

/-- The lookup key of the long-option branch: arg.substr(0, arg.find('=')),
    the whole token when there is no equals sign. -/
def longKey (arg : Tok) : Tok :=
  match findEq arg with
  | some j => arg.take j
  | none => arg

/-- The long-option branch: split at the first equals sign, look the prefix
    up; on a hit advance by the parse increment (0 for a bool flag: the
    cursor does not move); on a miss throw in strict mode, and in lenient
    mode fall through WITHOUT advancing (the loop then repeats forever). -/
def longRoute (S : Params) (toks : List Tok) (st : LoopSt) : StepRes :=
  match mapFind S.map (longKey (toks.getD st.pos [])) with
  | some idx =>
    match (st.descs.getD idx dummyDesc).parse toks st.pos with
    | .error e => .halt (st.descs, .err e)
    | .ok (d2, inc) =>
      .cont { st with descs := st.descs.set idx d2, pos := st.pos + inc }
  | none =>
    if S.strict then .halt (st.descs, .err (.exc "Unknown long option."))
    else .cont st

/-- One iteration of the scan loop of Params::parse, dispatching on the
    token under the cursor exactly in the order of the C++ branches. -/
def stepToken (S : Params) (toks : List Tok) (st : LoopSt) : StepRes :=
  if st.posOnward || isPosToken (toks.getD st.pos []) then posRoute S toks st
  else if toks.getD st.pos [] = ['-', '-'] then
    .cont { st with posOnward := true, pos := st.pos + 1 }
  else if (toks.getD st.pos []).getD 1 ' ' = '-' then longRoute S toks st
  else shortRoute S toks st

/-- ParamBase::check() over one descriptor. -/
def checkDesc (d : ParamDesc) : Bool := d.required && !d.found

/-- The post-scan audit: check() over every map_ entry, then over
    positional_.  Every violation throws the same exception, so the
    unspecified unordered_map iteration order is unobservable. -/
def audit (S : Params) (ds : List ParamDesc) : ParseRes :=
  if (S.map.any fun p => checkDesc (ds.getD p.2 dummyDesc))
      || (S.positional.any fun i => checkDesc (ds.getD i dummyDesc)) then
    (ds, .err (.exc "Required parameter not found."))
  else (ds, .done)

/-- The scan loop of Params::parse with explicit fuel; none means the fuel
    ran out (in particular, it is the value for every fuel on inputs where
    the C++ loop never advances). -/
def parseLoop (S : Params) (toks : List Tok) : Nat → LoopSt → Option ParseRes
  | 0, _ => none
  | fuel + 1, st =>
    if st.pos < toks.length then
      match stepToken S toks st with
      | .cont st2 => parseLoop S toks fuel st2
      | .halt r => some r
    else some (audit S st.descs)

/-- Params::parse(argc, argv). -/
def Params.parse (P : Params) (toks : List Tok) (fuel : Nat) : Option ParseRes :=
  parseLoop P toks fuel
    { descs := P.descs, pos := 0, nextPos := 0, posOnward := false }

/-- The scan loop after the terminator: the same loop with every token
    routed through the positional branch, never consulting the alias map. -/
def posLoop (S : Params) (toks : List Tok) : Nat → LoopSt → Option ParseRes
  | 0, _ => none
  | fuel + 1, st =>
    if st.pos < toks.length then
      match posRoute S toks st with
      | .cont st2 => posLoop S toks fuel st2
      | .halt r => some r
    else some (audit S st.descs)

/-- Schema for C1: a string-typed option registered as the long alias
    plus one string positional absorbing the trailing token. -/
def schemaC1 : Params :=
  addD (addD (emptyParams true) [strL "--count"] false .str (.vStr []))
    [strL "p"] false .str (.vStr [])

/-- Schema for the C2 counterexample: flag -a and numeric -b. -/
def schemaC2int : Params :=
  addD (addD (emptyParams true) [strL "-a"] false .bool (.vBool false))
    [strL "-b"] false .int (.vInt 0)

/-- Schema for the C2 amended claim: flag -a, string -b, and a positional
    that receives the unconsumed trailing token. -/
def schemaC2str : Params :=
  addD (addD (addD (emptyParams true) [strL "-a"] false .bool (.vBool false))
    [strL "-b"] false .str (.vStr [])) [strL "p"] false .str (.vStr [])

/-- Schema for C4: one required string positional, with the indeterminate
    initial value of the uninitialized member found_ passed explicitly. -/
def schemaC4 (fInit : Bool) : Params :=
  match (emptyParams true).add [strL "destination"] true .str (.vStr []) false fInit with
  | .ok p => p
  | .error _ => emptyParams true

/-- Schema for the short half of C8: a numeric two-character short option. -/
def schemaC8a : Params := addD (emptyParams true) [strL "-c"] false .int (.vInt 0)

/-- Schema for the long half of C8: a string long option. -/
def schemaC8b : Params := addD (emptyParams true) [strL "--count"] false .str (.vStr [])

/-- The initial loop state for a lenient Params with no descriptors. -/
def st0C3 : LoopSt := { descs := [], pos := 0, nextPos := 0, posOnward := false }

/-- Schema for C5: one boolean parameter registered under a long alias. -/
def schemaC5 : Params := addD (emptyParams true) [strL "--name"] false .bool (.vBool false)

/-- Initial loop state for the C5 schema. -/
def st0C5 : LoopSt := { descs := schemaC5.descs, pos := 0, nextPos := 0, posOnward := false }

/-- Loop state after matching the long boolean flag once: slot and found
    are set but the cursor has not moved. -/
def st1C5 : LoopSt :=
  { descs := [{ names := [strL "--name"], option := true, required := false,
                found := true, type := .bool, slot := .vBool true }],
    pos := 0, nextPos := 0, posOnward := false }

/-- Schema for C6: one registered flag, so the map is nonempty and the
    other descriptor's assignments can be observed. -/
def schemaC6 (strict : Bool) : Params :=
  addD (emptyParams strict) [strL "-a"] false .bool (.vBool false)

/-- Initial loop state for the lenient C6 schema. -/
def st0C6 : LoopSt :=
  { descs := (schemaC6 false).descs, pos := 0, nextPos := 0, posOnward := false }

/-- Schema for the C7 witness: a registered flag -a and one string
    positional. -/
def schemaC7 : Params :=
  addD (addD (emptyParams true) [strL "-a"] false .bool (.vBool false))
    [strL "p"] false .str (.vStr [])

/-- The loop state of the C7 witness scenario just after the terminator
    token of ["--", "-a"] has been consumed. -/
def stWitC7 : LoopSt :=
  { descs := schemaC7.descs, pos := 1, nextPos := 0, posOnward := true }

/-- The single descriptor of the C10 schema: registered only under the
    three-character single-dash alias. -/
def descC10 (req : Bool) (ty : PType) (slot0 : Value) (oInit fInit : Bool) : ParamDesc :=
  mkParam [strL "-ab"] req ty slot0 oInit fInit

/-- The C10 schema: one descriptor whose only alias is "-ab". -/
def schemaC10 (strict req : Bool) (ty : PType) (slot0 : Value)
    (oInit fInit : Bool) : Params :=
  match (emptyParams strict).add [strL "-ab"] req ty slot0 oInit fInit with
  | .ok p => p
  | .error _ => emptyParams strict

/-- The descriptor storage carried by a step result. -/
def stepDescs (res : StepRes) : List ParamDesc :=
  match res with
  | .cont st2 => st2.descs
  | .halt r => r.1

/-- Unfolding equation for parseLoop at positive fuel. -/
theorem parseLoop_succ (S : Params) (toks : List Tok) (fuel : Nat) (st : LoopSt) :
    parseLoop S toks (fuel + 1) st =
      if st.pos < toks.length then
        match stepToken S toks st with
        | .cont st2 => parseLoop S toks fuel st2
        | .halt r => some r
      else some (audit S st.descs) := rfl

/-- Unfolding equation for posLoop at positive fuel. -/
theorem posLoop_succ (S : Params) (toks : List Tok) (fuel : Nat) (st : LoopSt) :
    posLoop S toks (fuel + 1) st =
      if st.pos < toks.length then
        match posRoute S toks st with
        | .cont st2 => posLoop S toks fuel st2
        | .halt r => some r
      else some (audit S st.descs) := rfl

/-- C1: the claim says parsing ["--count", V] binds the same converted
    value as "--count=V", taking V from the next token with consumption 2.
    The code violates this: for a long option without an equals sign,
    ParamBase::value hits the opt.size() > 2 branch (commented as the
    short-option-with-appended-value case) and returns opt.substr(2), so
    "--count" followed by "10" binds the text "count" with consumption 1,
    while "--count=10" binds "10". -/
theorem C1_long_separate_value_mismatch :
    (Params.parse schemaC1 [strL "--count", strL "10"] 10).map
        (fun r => ((r.1.getD 0 dummyDesc).slot, r.2)) =
      some (.vStr (strL "count"), .done)
    ∧ (Params.parse schemaC1 [strL "--count=10"] 10).map
        (fun r => ((r.1.getD 0 dummyDesc).slot, r.2)) =
      some (.vStr (strL "10"), .done)
    ∧ Value.vStr (strL "count") ≠ Value.vStr (strL "10") := by
  decide

/-- C2 counterexample: parsing ["-ab", "5"] with flag -a and numeric -b
    does NOT bind 5 to -b with 2 tokens consumed.  The flag is set, but the
    value text extracted for -b is the cluster substring from index 2 (the
    text "b"), whose numeric conversion throws: the parse ends in a
    conversion error, -b's slot still 0 and its found flag unset. -/
theorem C2_counterexample :
    (Params.parse schemaC2int [strL "-ab", strL "5"] 10).map
        (fun r => ((r.1.getD 0 dummyDesc).slot, (r.1.getD 1 dummyDesc).slot,
                   (r.1.getD 1 dummyDesc).found, r.2)) =
      some (.vBool true, .vInt 0, false, .err .convErr) := by
  decide

/-- C2 amended: with -a a flag and -b value-taking, parsing ["-ab", "5"]
    sets a := true; the value bound to -b is the cluster token's substring
    from index 2 — the text "b" — not the next token: a string-typed -b
    receives "b" with the cluster consuming one token (so "5" falls through
    to the positionals), and a numeric -b fails its conversion. -/
theorem C2_amended_cluster_substring_value :
    ((Params.parse schemaC2str [strL "-ab", strL "5"] 10).map
        (fun r => ((r.1.getD 0 dummyDesc).slot, (r.1.getD 1 dummyDesc).slot,
                   (r.1.getD 2 dummyDesc).slot, r.2)) =
      some (.vBool true, .vStr (strL "b"), .vStr (strL "5"), .done))
    ∧ (Params.parse schemaC2int [strL "-ab", strL "5"] 10).map
        (fun r => ((r.1.getD 0 dummyDesc).slot, r.2)) =
      some (.vBool true, .err .convErr) := by
  decide

/-- C4: the claim relies on found_ being initially false at registration,
    but the ParamBase constructor never initializes found_, so the
    required-parameter audit reads an indeterminate value.  On the empty
    token array with one required positional, the audit throws exactly when
    the stale bit happens to be false: with the bit true, the missing
    required parameter is silently accepted. -/
theorem C4_found_flag_uninitialized :
    (Params.parse (schemaC4 false) [] 1).map (fun r => r.2) =
      some (.err (.exc "Required parameter not found."))
    ∧ (Params.parse (schemaC4 true) [] 1).map (fun r => r.2) = some .done := by
  decide

/-- C8: the claim says a value-expecting option token at the end of the
    stream fails with MissingValueError and never reads past the end.  The
    code has no such error: a trailing "-c" hits assert(start + 1 < end) —
    an abort in debug builds and an out-of-bounds read with NDEBUG — and a
    trailing "--count" never reaches the next-token path at all: it binds
    the substring "count" from its own token and succeeds. -/
theorem C8_missing_value_not_raised :
    (Params.parse schemaC8a [strL "-c"] 10).map (fun r => r.2) =
      some (.err .assertFail)
    ∧ (Params.parse schemaC8b [strL "--count"] 10).map
        (fun r => ((r.1.getD 0 dummyDesc).slot, r.2)) =
      some (.vStr (strL "count"), .done) := by
  decide

/-- C9 counterexample: Params::add with an empty name list does not fail;
    it registers a positional descriptor with no aliases (exactly how the
    overview example registers its destination parameter). -/
theorem C9_counterexample :
    (emptyParams true).add [] true .str (.vStr []) false false =
      .ok { strict := true, map := [], positional := [0],
            descs := [mkParam [] true .str (.vStr []) false false] } := rfl

/-- C9 amended: add accepts an empty alias list unconditionally: the
    descriptor is appended to the positionals, nothing is added to the
    alias map, and no error of any kind is raised. -/
theorem C9_empty_names_accepted (ps : Params) (required : Bool) (ty : PType)
    (slot0 : Value) (oInit fInit : Bool) :
    ps.add [] required ty slot0 oInit fInit =
      .ok { ps with
            descs := ps.descs ++ [mkParam [] required ty slot0 oInit fInit]
            positional := ps.positional ++ [ps.descs.length] } := rfl

/-- C3: the claim says parse always terminates, and that in lenient mode a
    positional token arriving after the positional descriptors are
    exhausted is skipped with consumption 1.  In strict mode the overflow
    does abort with an error, but in lenient mode the branch executes
    `continue` without advancing start, so the loop repeats the same token
    forever: parse never terminates (none for every fuel). -/
theorem C3_lenient_positional_overflow_loops :
    ((Params.parse (emptyParams true) [strL "x"] 10).map (fun r => r.2) =
      some (.err (.exc "Unknown positional parameter.")))
    ∧ ∀ fuel, Params.parse (emptyParams false) [strL "x"] fuel = none := by
  refine ⟨by decide, ?_⟩
  intro fuel
  show parseLoop (emptyParams false) [strL "x"] fuel st0C3 = none
  induction fuel with
  | zero => rfl
  | succ n ih =>
    rw [parseLoop_succ]
    have hp : st0C3.pos < [strL "x"].length := by decide
    have h : stepToken (emptyParams false) [strL "x"] st0C3 = .cont st0C3 := by decide
    rw [if_pos hp, h]
    exact ih

/-- C5: the claim says a boolean flag matched via a standalone long-option
    token consumes exactly that one token and the scan continues.  The
    code sets the slot and the found flag, but Param<bool>::parse returns 0
    and the long-option branch advances start by exactly that return value,
    so the cursor stays on the same token and the loop never terminates. -/
theorem C5_long_bool_flag_never_advances :
    stepToken schemaC5 [strL "--name"] st0C5 = .cont st1C5
    ∧ (st1C5.descs.getD 0 dummyDesc).found = true
    ∧ (st1C5.descs.getD 0 dummyDesc).slot = .vBool true
    ∧ st1C5.pos = st0C5.pos
    ∧ ∀ fuel, Params.parse schemaC5 [strL "--name"] fuel = none := by
  refine ⟨by decide, by decide, by decide, by decide, ?_⟩
  intro fuel
  show parseLoop schemaC5 [strL "--name"] fuel st0C5 = none
  have key : ∀ n, parseLoop schemaC5 [strL "--name"] n st1C5 = none := by
    intro n
    induction n with
    | zero => rfl
    | succ m ih =>
      rw [parseLoop_succ]
      have hp : st1C5.pos < [strL "--name"].length := by decide
      have h : stepToken schemaC5 [strL "--name"] st1C5 = .cont st1C5 := by decide
      rw [if_pos hp, h]
      exact ih
  cases fuel with
  | zero => rfl
  | succ m =>
    rw [parseLoop_succ]
    have hp : st0C5.pos < [strL "--name"].length := by decide
    have h : stepToken schemaC5 [strL "--name"] st0C5 = .cont st1C5 := by decide
    rw [if_pos hp, h]
    exact key m

/-- C6: on the unmatched token "--bogus", strict mode does raise the
    unknown-long-option error at that token with other descriptors
    untouched, as claimed; but in lenient mode the miss branch falls
    through without advancing start, so instead of skipping the token with
    consumption 1 the loop repeats it forever (none for every fuel). -/
theorem C6_unknown_long_option_strict_vs_lenient :
    Params.parse (schemaC6 true) [strL "--bogus"] 10 =
      some ((schemaC6 true).descs, .err (.exc "Unknown long option."))
    ∧ ∀ fuel, Params.parse (schemaC6 false) [strL "--bogus"] fuel = none := by
  refine ⟨by decide, ?_⟩
  intro fuel
  show parseLoop (schemaC6 false) [strL "--bogus"] fuel st0C6 = none
  induction fuel with
  | zero => rfl
  | succ n ih =>
    rw [parseLoop_succ]
    have hp : st0C6.pos < [strL "--bogus"].length := by decide
    have h : stepToken (schemaC6 false) [strL "--bogus"] st0C6 = .cont st0C6 := by decide
    rw [if_pos hp, h]
    exact ih

/-- When the positional-onward flag is set, the dispatcher routes the token
    through the positional branch without consulting the alias map. -/
theorem stepToken_posOnward (S : Params) (toks : List Tok) (st : LoopSt)
    (h : st.posOnward = true) : stepToken S toks st = posRoute S toks st := by
  simp [stepToken, h]

/-- The positional branch never changes the positional-onward flag. -/
theorem posRoute_posOnward (S : Params) (toks : List Tok) (st st2 : LoopSt)
    (h : posRoute S toks st = .cont st2) : st2.posOnward = st.posOnward := by
  unfold posRoute at h
  split at h
  · split at h
    · cases h
    · cases h
      rfl
  · split at h
    · cases h
    · cases h
      rfl

/-- C7: once the terminator has switched the parse into the positional-only
    state, the rest of the scan is exactly the loop that routes every token
    (option-alias lookalikes and further terminator tokens included)
    through the positional branch: the alias map is never consulted again
    and the state is permanent. -/
theorem C7_terminator_positional_onward (S : Params) (toks : List Tok)
    (fuel : Nat) (st : LoopSt) (h : st.posOnward = true) :
    parseLoop S toks fuel st = posLoop S toks fuel st := by
  induction fuel generalizing st with
  | zero => rfl
  | succ n ih =>
    rw [parseLoop_succ, posLoop_succ]
    by_cases hp : st.pos < toks.length
    · rw [if_pos hp, if_pos hp, stepToken_posOnward S toks st h]
      cases hr : posRoute S toks st with
      | cont st2 => exact ih st2 ((posRoute_posOnward S toks st st2 hr).trans h)
      | halt r => rfl
    · rw [if_neg hp, if_neg hp]

theorem C7_terminator_positional_onward_witness :
    parseLoop schemaC7 [strL "--", strL "-a"] 5 stWitC7 =
      posLoop schemaC7 [strL "--", strL "-a"] 5 stWitC7 :=
  C7_terminator_positional_onward schemaC7 [strL "--", strL "-a"] 5 stWitC7 rfl

theorem schemaC10_map (strict req : Bool) (ty : PType) (slot0 : Value)
    (oInit fInit : Bool) :
    (schemaC10 strict req ty slot0 oInit fInit).map = [(strL "-ab", 0)] := rfl

theorem schemaC10_positional (strict req : Bool) (ty : PType) (slot0 : Value)
    (oInit fInit : Bool) :
    (schemaC10 strict req ty slot0 oInit fInit).positional = [] := rfl

theorem schemaC10_descs (strict req : Bool) (ty : PType) (slot0 : Value)
    (oInit fInit : Bool) :
    (schemaC10 strict req ty slot0 oInit fInit).descs =
      [descC10 req ty slot0 oInit fInit] := rfl

theorem strl_ab : strL "-ab" = ['-', 'a', 'b'] := rfl

/-- Unfolding equation for mapFind on a nonempty map. -/
theorem mapFind_cons (k2 : Tok) (v : Nat) (rest : List (Tok × Nat)) (k : Tok) :
    mapFind ((k2, v) :: rest) k = if k = k2 then some v else mapFind rest k := rfl

/-- No two-character short-option key equals the three-character alias. -/
theorem short_key_ne_ab (c : Char) : ¬ (['-', c] = strL "-ab") := by
  rw [strl_ab]
  simp

/-- A prefix of a token whose second character is the dash marker is never
    the alias "-ab", whose second character is not. -/
theorem take_ne_ab (arg : Tok) (h : arg.getD 1 ' ' = '-') (n : Nat) :
    ¬ (arg.take n = ['-', 'a', 'b']) := by
  intro he
  obtain ⟨t, ht⟩ := List.take_prefix n arg
  rw [he] at ht
  rw [← ht] at h
  have hcontr : ('a' : Char) = '-' := h
  exact absurd hcontr (by decide)

/-- The long-option lookup key always starts with the doubled marker, so it
    is never the single-dash alias "-ab". -/
theorem longKey_ne_ab (arg : Tok) (h : arg.getD 1 ' ' = '-') :
    ¬ (longKey arg = strL "-ab") := by
  rw [strl_ab]
  unfold longKey
  cases hf : findEq arg with
  | some j => exact take_ne_ab arg h j
  | none =>
    intro he
    exact take_ne_ab arg h arg.length (by rw [List.take_length]; exact he)

/-- Unfolding equation for the cluster scan on a nonempty character list. -/
theorem clusterLoop_cons (S : Params) (toks : List Tok) (pos : Nat) (c : Char)
    (rest : List Char) (ds : List ParamDesc) (inc : Option Nat) :
    clusterLoop S toks pos (c :: rest) ds inc =
      match mapFind S.map ['-', c] with
      | some idx =>
        match (ds.getD idx dummyDesc).parse toks pos with
        | .error e => .error (e, ds)
        | .ok (d2, inc2) =>
          if inc2 > 0 then .ok (ds.set idx d2, some inc2)
          else clusterLoop S toks pos rest (ds.set idx d2) (some inc2)
      | none =>
        if S.strict then .error (.exc "Unknown short option.", ds)
        else clusterLoop S toks pos rest ds inc := rfl

/-- Over the C10 schema every cluster character misses, so the scan leaves
    the descriptors and the uninitialized inc untouched: it either throws
    the strict unknown-short-option error or completes with nothing set. -/
theorem clusterLoop_ab (S : Params) (hm : S.map = [(strL "-ab", 0)])
    (toks : List Tok) (pos : Nat) :
    ∀ (cs : List Char) (ds : List ParamDesc) (inc : Option Nat),
      clusterLoop S toks pos cs ds inc = .error (.exc "Unknown short option.", ds)
      ∨ clusterLoop S toks pos cs ds inc = .ok (ds, inc) := by
  intro cs
  induction cs with
  | nil =>
    intro ds inc
    exact Or.inr rfl
  | cons c rest ih =>
    intro ds inc
    have hfind : mapFind S.map ['-', c] = none := by
      rw [hm, mapFind_cons, if_neg (short_key_ne_ab c)]
      rfl
    have ht : clusterLoop S toks pos (c :: rest) ds inc =
        if S.strict then .error (.exc "Unknown short option.", ds)
        else clusterLoop S toks pos rest ds inc := by
      rw [clusterLoop_cons, hfind]
    rw [ht]
    by_cases hs : S.strict
    · rw [if_pos hs]
      exact Or.inl rfl
    · rw [if_neg hs]
      exact ih ds inc

/-- With no positional descriptors, the positional branch throws in strict
    mode and spins in place in lenient mode. -/
theorem posRoute_empty (S : Params) (hpos : S.positional = []) (toks : List Tok)
    (st : LoopSt) :
    posRoute S toks st =
      if S.strict then .halt (st.descs, .err (.exc "Unknown positional parameter."))
      else .cont st := by
  have h0 : ¬ st.nextPos < S.positional.length := by
    rw [hpos]
    exact Nat.not_lt_zero _
  unfold posRoute
  rw [dif_neg h0]

/-- Over the C10 schema the long-option lookup always misses. -/
theorem longRoute_ab (S : Params) (hm : S.map = [(strL "-ab", 0)])
    (toks : List Tok) (st : LoopSt)
    (h1 : (toks.getD st.pos []).getD 1 ' ' = '-') :
    longRoute S toks st =
      if S.strict then .halt (st.descs, .err (.exc "Unknown long option."))
      else .cont st := by
  have hfind : mapFind S.map (longKey (toks.getD st.pos [])) = none := by
    rw [hm, mapFind_cons, if_neg (longKey_ne_ab _ h1)]
    rfl
  unfold longRoute
  rw [hfind]

/-- Over the C10 schema, no loop iteration ever touches the descriptor
    storage: every branch continues or halts with it unchanged. -/
theorem stepToken_ab_descs (S : Params) (hm : S.map = [(strL "-ab", 0)])
    (hpos : S.positional = []) (toks : List Tok) (st : LoopSt) :
    stepDescs (stepToken S toks st) = st.descs := by
  unfold stepToken
  split
  · rw [posRoute_empty S hpos toks st]
    split <;> rfl
  · split
    · rfl
    · split
      · rename_i h2 h3
        rw [longRoute_ab S hm toks st h3]
        split <;> rfl
      · unfold shortRoute
        rcases clusterLoop_ab S hm toks st.pos ((toks.getD st.pos []).drop 1)
            st.descs none with h1 | h1 <;> rw [h1]
        · rfl
        · rfl

/-- The audit never modifies the descriptor storage. -/
theorem audit_fst (S : Params) (ds : List ParamDesc) : (audit S ds).1 = ds := by
  unfold audit
  split <;> rfl

/-- Over the C10 schema, a completed parse returns the descriptor storage
    it started from. -/
theorem parseLoop_ab_descs (S : Params) (hm : S.map = [(strL "-ab", 0)])
    (hpos : S.positional = []) (toks : List Tok) :
    ∀ (fuel : Nat) (st : LoopSt) (r : ParseRes),
      parseLoop S toks fuel st = some r → r.1 = st.descs := by
  intro fuel
  induction fuel with
  | zero =>
    intro st r h
    cases h
  | succ n ih =>
    intro st r h
    rw [parseLoop_succ] at h
    by_cases hp : st.pos < toks.length
    · rw [if_pos hp] at h
      cases hst : stepToken S toks st with
      | cont st2 =>
        rw [hst] at h
        have h2 : parseLoop S toks n st2 = some r := h
        have hd : st2.descs = st.descs := by
          have hsd := stepToken_ab_descs S hm hpos toks st
          rw [hst] at hsd
          exact hsd
        rw [ih st2 r h2, hd]
      | halt r2 =>
        rw [hst] at h
        have h2 : some r2 = some r := h
        have hr : r = r2 := (Option.some.inj h2).symm
        have hsd := stepToken_ab_descs S hm hpos toks st
        rw [hst] at hsd
        rw [hr]
        exact hsd
    · rw [if_neg hp] at h
      have h2 : some (audit S st.descs) = some r := h
      have hr : r = audit S st.descs := (Option.some.inj h2).symm
      rw [hr, audit_fst]

/-- C10: a descriptor registered only under the single-dash alias "-ab" is
    never matched by any token of any parse: the short-option scan looks up
    two-character keys, the long-option scan looks up keys starting with
    the doubled marker, and the descriptor is not positional, so whenever
    parse returns, its found flag and slot still hold the values they had
    at registration. -/
theorem C10_dash_ab_alias_never_matched (strict req : Bool) (ty : PType)
    (slot0 : Value) (oInit fInit : Bool) (toks : List Tok) (fuel : Nat)
    (r : ParseRes)
    (h : (schemaC10 strict req ty slot0 oInit fInit).parse toks fuel = some r) :
    r.1 = [descC10 req ty slot0 oInit fInit] := by
  have hinv := parseLoop_ab_descs (schemaC10 strict req ty slot0 oInit fInit)
    (schemaC10_map strict req ty slot0 oInit fInit)
    (schemaC10_positional strict req ty slot0 oInit fInit) toks fuel
    { descs := (schemaC10 strict req ty slot0 oInit fInit).descs,
      pos := 0, nextPos := 0, posOnward := false } r h
  exact hinv.trans (schemaC10_descs strict req ty slot0 oInit fInit)

theorem C10_dash_ab_alias_never_matched_witness :
    Params.parse (schemaC10 true false .int (.vInt 0) false false) [strL "-ab"] 5 =
      some ([descC10 false .int (.vInt 0) false false],
            .err (.exc "Unknown short option."))
    ∧ (([descC10 false .int (.vInt 0) false false],
         Outcome.err (.exc "Unknown short option.")) : ParseRes).1 =
        [descC10 false .int (.vInt 0) false false] :=
  ⟨by decide,
   C10_dash_ab_alias_never_matched true false .int (.vInt 0) false false
     [strL "-ab"] 5 _ (by decide)⟩

end ProgramParams
